import Mathlib

/-!
Shallow embedding of the step certificate CLI (package certificate):
the verify command (src/command/certificate/verify.go, verifyAction) and
the create command (src/unnamed/part_000, createAction and
loadIssuerIdentity), together with models of the Go standard library
functions they call and, where a collaborator of this repository is not
under src, definitions modelled from the spec.
-/

namespace StepCli

/-- Model of the payload bytes carried by a PEM block: either they parse
as an X.509 certificate (identified by a natural number) or they are
malformed DER that crypto.x509.ParseCertificate rejects. -/
inductive CertBytes where
  | wellFormed (c : Nat)
  | malformed
  deriving DecidableEq, Repr

/-- A decoded PEM block: its type line, whether its header map is
nonempty, and its payload bytes. A raw input file is modelled as the list
of PEM blocks that successive calls of pem.Decode yield. -/
structure PemBlock where
  type : String
  headers : Bool
  bytes : CertBytes
  deriving DecidableEq, Repr

/-- Model of crypto.x509.ParseCertificate. -/
def parseCertificate : CertBytes → Except Unit Nat
  | .wellFormed c => .ok c
  | .malformed => .error ()

/-- The identifier carried by well-formed bytes (junk value on malformed
bytes, which every use rules out). -/
def certIdOf : CertBytes → Nat
  | .wellFormed c => c
  | .malformed => 0

/-- The PEM blocks of a bundle whose type line is CERTIFICATE, in file
order. -/
def certBlocks (blocks : List PemBlock) : List PemBlock :=
  blocks.filter fun b => b.type == "CERTIFICATE"

/-- The chain-assembly loop of verifyAction (verify.go lines 71 to 87):
walk the decoded PEM blocks in order; skip blocks whose type is not
CERTIFICATE; parse the first CERTIFICATE block as the leaf, returning its
parse error if malformed; append every later CERTIFICATE block, unparsed
and re-encoded, to the intermediate bundle ipems. -/
def assembleChain : List PemBlock → Option Nat → List PemBlock →
    Except Unit (Option Nat × List PemBlock)
  | [], crt, ipems => .ok (crt, ipems)
  | b :: rest, crt, ipems =>
    if b.type = "CERTIFICATE" then
      match crt with
      | none =>
        match parseCertificate b.bytes with
        | .ok c => assembleChain rest (some c) ipems
        | .error _ => .error ()
      | some _ => assembleChain rest crt (ipems ++ [b])
    else
      assembleChain rest crt ipems

/-- Model of the Go standard library method CertPool.AppendCertsFromPEM:
it walks the PEM blocks, skips blocks that are not bare CERTIFICATE
blocks or whose bytes do not parse, adds the rest to the pool, and
reports whether at least one certificate was successfully added. -/
def appendCertsFromPEM (pool : List Nat) (pems : List PemBlock) : List Nat × Bool :=
  match pems with
  | [] => (pool, false)
  | b :: rest =>
    if b.type = "CERTIFICATE" ∧ b.headers = false then
      match parseCertificate b.bytes with
      | .ok c => ((appendCertsFromPEM (pool ++ [c]) rest).1, true)
      | .error _ => appendCertsFromPEM pool rest
    else
      appendCertsFromPEM pool rest

/-- The x509.VerifyOptions record built by verifyAction: hostname to
check, root pool (none means the platform default trust store), and the
intermediate pool. -/
structure VerifyOpts where
  dnsName : String
  roots : Option (List Nat)
  intermediates : List Nat
  deriving DecidableEq, Repr

/-- Outcome of one run of verifyAction. The panicNilLeaf case records
that control reached the final crt.Verify call with crt still nil, which
in Go is a nil-pointer dereference. -/
inductive VerifyOutcome where
  | fileError
  | leafParseError
  | intermediateListError
  | panicNilLeaf (opts : VerifyOpts)
  | verifyFailed (opts : VerifyOpts)
  | success (opts : VerifyOpts)
  deriving DecidableEq, Repr

/-- The VerifyOptions a run handed to crt.Verify, when it reached that
call. -/
def VerifyOutcome.optsOf : VerifyOutcome → Option VerifyOpts
  | .panicNilLeaf o => some o
  | .verifyFailed o => some o
  | .success o => some o
  | _ => none

/-- The root pool verifyAction ends up with (verify.go lines 92 to 103):
nil when the roots flag is empty, the loaded pool on a successful load,
and, faithful to the source bug, nil again on a failed load, because the
error computed by errors.Wrapf on line 101 is never returned. -/
def rootPoolOf (readCertPool : String → Except String (List Nat))
    (roots : String) : Option (List Nat) :=
  if roots ≠ "" then
    match readCertPool roots with
    | .ok p => some p
    | .error _ => none
  else
    none

/-- verifyAction (verify.go lines 51 to 115). Parameters: readCertPool
models stepx509.ReadCertPool; verifyFn models the RFC 5280 path
validation done by crt.Verify; crtRead is the result of reading the
certificate file (none means the read failed); host and roots are the
flag values. -/
def verifyAction (readCertPool : String → Except String (List Nat))
    (verifyFn : Nat → VerifyOpts → Bool)
    (crtRead : Option (List PemBlock)) (host roots : String) : VerifyOutcome :=
  match crtRead with
  | none => .fileError
  | some blocks =>
    match assembleChain blocks none [] with
    | .error _ => .leafParseError
    | .ok (crt, ipems) =>
      let ap := appendCertsFromPEM [] ipems
      if ipems.length > 0 ∧ ap.2 = false then
        .intermediateListError
      else
        let opts : VerifyOpts := ⟨host, rootPoolOf readCertPool roots, ap.1⟩
        match crt with
        | none => .panicNilLeaf opts
        | some c => if verifyFn c opts then .success opts else .verifyFailed opts

/-- A trust-pool loader that fails on every specification, for exercising
the error path of verifyAction. -/
def failingPoolLoader : String → Except String (List Nat) :=
  fun s => .error s

/-- Once the leaf is fixed, chain assembly appends exactly the remaining
CERTIFICATE blocks, in order, to the accumulator. -/
theorem assembleChain_some (blocks : List PemBlock) :
    ∀ (c : Nat) (acc : List PemBlock),
      assembleChain blocks (some c) acc = .ok (some c, acc ++ certBlocks blocks) := by
  induction blocks with
  | nil => intro c acc; simp [assembleChain, certBlocks]
  | cons b rest ih =>
    intro c acc
    by_cases hb : b.type = "CERTIFICATE"
    · simp [assembleChain, hb, certBlocks, ih]
    · simp [assembleChain, hb, certBlocks, ih]

/-- If the first CERTIFICATE block of the bundle is malformed, chain
assembly stops with the leaf parse error. -/
theorem assembleChain_malformed_leaf (blocks : List PemBlock) :
    ∀ b, (certBlocks blocks).head? = some b → b.bytes = CertBytes.malformed →
      assembleChain blocks none [] = .error () := by
  induction blocks with
  | nil => intro b h _; simp [certBlocks] at h
  | cons a rest ih =>
    intro b h hm
    by_cases ha : a.type = "CERTIFICATE"
    · have hcb : certBlocks (a :: rest) = a :: certBlocks rest := by
        simp [certBlocks, ha]
      rw [hcb] at h
      simp only [List.head?_cons, Option.some.injEq] at h
      subst h
      simp [assembleChain, ha, hm, parseCertificate]
    · have hcb : certBlocks (a :: rest) = certBlocks rest := by
        simp [certBlocks, ha]
      rw [hcb] at h
      simpa [assembleChain, ha] using ih b h hm

/-- AppendCertsFromPEM reports false when no block parses. -/
theorem appendCertsFromPEM_all_malformed (pems : List PemBlock) :
    ∀ pool, (∀ b ∈ pems, b.bytes = CertBytes.malformed) →
      (appendCertsFromPEM pool pems).2 = false := by
  induction pems with
  | nil => intro pool _; rfl
  | cons b rest ih =>
    intro pool h
    have hb : b.bytes = CertBytes.malformed := h b (by simp)
    have hrest : ∀ x ∈ rest, x.bytes = CertBytes.malformed := fun x hx =>
      h x (by simp [hx])
    by_cases hc : b.type = "CERTIFICATE" ∧ b.headers = false
    · simp [appendCertsFromPEM, hc, hb, parseCertificate, ih _ hrest]
    · simp [appendCertsFromPEM, hc, ih _ hrest]

/-- The root pool verifyAction hands to crt.Verify is determined by the
roots flag and the loader result alone; a loader error leaves it nil. -/
theorem verifyAction_opts_roots (rp : String → Except String (List Nat))
    (fn : Nat → VerifyOpts → Bool) (input : Option (List PemBlock))
    (host roots : String) (o : VerifyOpts)
    (h : (verifyAction rp fn input host roots).optsOf = some o) :
    o.roots = rootPoolOf rp roots := by
  match input with
  | none => simp [verifyAction, VerifyOutcome.optsOf] at h
  | some blocks =>
    simp only [verifyAction] at h
    split at h
    · simp [VerifyOutcome.optsOf] at h
    · split at h
      · simp [VerifyOutcome.optsOf] at h
      · split at h
        · simp only [VerifyOutcome.optsOf, Option.some.injEq] at h
          rw [← h]
        · split at h
          · simp only [VerifyOutcome.optsOf, Option.some.injEq] at h
            rw [← h]
          · simp only [VerifyOutcome.optsOf, Option.some.injEq] at h
            rw [← h]

/-- Claim C1, code-bug evidence: a roots specification whose load fails
does not abort verification; verify.go line 101 computes errors.Wrapf but
never returns it, so the run continues with a nil root pool, meaning the
platform default trust store, and here even reports success. -/
theorem roots_load_error_ignored :
    failingPoolLoader "badroots" = Except.error "badroots" ∧
    verifyAction failingPoolLoader (fun _ _ => true)
      (some [⟨"CERTIFICATE", false, CertBytes.wellFormed 7⟩]) "" "badroots" =
      .success ⟨"", none, []⟩ :=
  ⟨rfl, rfl⟩

/-- Claim C2: chain assembly takes the first CERTIFICATE block as the
leaf and accumulates every subsequent CERTIFICATE block, in file order,
as the intermediates, skipping non-certificate blocks; with one
CERTIFICATE block the intermediate set is empty, with N blocks it is the
remaining N minus 1. -/
theorem chain_assembly_leaf_and_intermediates (blocks : List PemBlock)
    (h : ((certBlocks blocks).head?.all fun b => b.bytes != CertBytes.malformed) = true) :
    assembleChain blocks none [] =
      .ok ((certBlocks blocks).head?.map fun b => certIdOf b.bytes,
           (certBlocks blocks).tail) := by
  induction blocks with
  | nil => rfl
  | cons b rest ih =>
    by_cases hb : b.type = "CERTIFICATE"
    · have hcb : certBlocks (b :: rest) = b :: certBlocks rest := by
        simp [certBlocks, hb]
      rw [hcb] at h ⊢
      simp only [List.head?_cons, Option.all_some] at h
      cases hby : b.bytes with
      | malformed => rw [hby] at h; simp at h
      | wellFormed c =>
        simp [assembleChain, hb, hby, parseCertificate, assembleChain_some, certIdOf]
    · have hcb : certBlocks (b :: rest) = certBlocks rest := by
        simp [certBlocks, hb]
      rw [hcb] at h ⊢
      simpa [assembleChain, hb] using ih h

/-- Concrete bundle for the chain-assembly witness: a key block, three
certificate blocks, a CRL block interleaved. -/
def c2bundle : List PemBlock :=
  [⟨"EC PRIVATE KEY", false, .malformed⟩,
   ⟨"CERTIFICATE", false, .wellFormed 1⟩,
   ⟨"X509 CRL", false, .malformed⟩,
   ⟨"CERTIFICATE", false, .wellFormed 2⟩,
   ⟨"CERTIFICATE", false, .wellFormed 3⟩]

/-- Claim C2 witness: the chain-assembly theorem evaluated on a concrete
five-block bundle with interleaved non-certificate blocks. -/
theorem chain_assembly_witness :
    ((certBlocks c2bundle).head?.all fun b => b.bytes != CertBytes.malformed) = true ∧
    assembleChain c2bundle none [] =
      .ok ((certBlocks c2bundle).head?.map fun b => certIdOf b.bytes,
           (certBlocks c2bundle).tail) :=
  ⟨by decide, chain_assembly_leaf_and_intermediates c2bundle (by decide)⟩

/-- Bundle with a well-formed leaf, one malformed intermediate, and one
well-formed intermediate. -/
def mixedBundle : List PemBlock :=
  [⟨"CERTIFICATE", false, .wellFormed 1⟩,
   ⟨"CERTIFICATE", false, .malformed⟩,
   ⟨"CERTIFICATE", false, .wellFormed 2⟩]

/-- Claim C3 counterexample: a bundle whose second CERTIFICATE block is
malformed does not make verifyAction fail with the intermediate-bundle
error; AppendCertsFromPEM drops the malformed block and reports true
because the third block parses, so the run continues and succeeds. -/
theorem malformed_intermediate_not_reported :
    (mixedBundle[1]?).map PemBlock.bytes = some CertBytes.malformed ∧
    verifyAction (fun _ => .ok []) (fun _ _ => true) (some mixedBundle) "" "" =
      .success ⟨"", none, [2]⟩ :=
  ⟨rfl, rfl⟩

/-- Claim C3 as amended: a malformed first CERTIFICATE block fails with
the leaf parse error; a well-formed leaf followed by at least one
CERTIFICATE block of which none parses fails with the distinct
intermediate-list error; when at least one intermediate parses, malformed
intermediates are dropped silently. -/
theorem leaf_vs_intermediate_errors :
    (∀ (rp : String → Except String (List Nat)) (fn : Nat → VerifyOpts → Bool)
       (blocks : List PemBlock) (host roots : String) (b : PemBlock),
       (certBlocks blocks).head? = some b → b.bytes = CertBytes.malformed →
       verifyAction rp fn (some blocks) host roots = .leafParseError) ∧
    (∀ (rp : String → Except String (List Nat)) (fn : Nat → VerifyOpts → Bool)
       (blocks : List PemBlock) (host roots : String) (c : Nat)
       (ipems : List PemBlock),
       assembleChain blocks none [] = .ok (some c, ipems) → ipems ≠ [] →
       (∀ b ∈ ipems, b.bytes = CertBytes.malformed) →
       verifyAction rp fn (some blocks) host roots = .intermediateListError) := by
  constructor
  · intro rp fn blocks host roots b h hm
    simp [verifyAction, assembleChain_malformed_leaf blocks b h hm]
  · intro rp fn blocks host roots c ipems ha hne hmal
    have hflag := appendCertsFromPEM_all_malformed ipems [] hmal
    have hlen : ipems.length > 0 := List.length_pos.mpr hne
    simp [verifyAction, ha, hflag, hlen]

/-- Claim C3 amended witness: both branches evaluated on concrete
bundles. -/
theorem leaf_vs_intermediate_errors_witness :
    ((certBlocks [⟨"CERTIFICATE", false, CertBytes.malformed⟩]).head? =
        some ⟨"CERTIFICATE", false, CertBytes.malformed⟩ ∧
      verifyAction (fun _ => .ok []) (fun _ _ => true)
        (some [⟨"CERTIFICATE", false, CertBytes.malformed⟩]) "" "" =
        .leafParseError) ∧
    verifyAction (fun _ => .ok []) (fun _ _ => true)
      (some [⟨"CERTIFICATE", false, CertBytes.wellFormed 1⟩,
             ⟨"CERTIFICATE", false, CertBytes.malformed⟩]) "" "" =
      .intermediateListError :=
  ⟨⟨rfl, leaf_vs_intermediate_errors.1 _ _ _ "" "" _ rfl rfl⟩,
   leaf_vs_intermediate_errors.2 _ _ _ "" "" 1
     [⟨"CERTIFICATE", false, CertBytes.malformed⟩] rfl (by decide) (by decide)⟩

/-- Claim C8: with an empty roots flag no root pool is built and the
VerifyOptions carry none, meaning the platform default store; with a
nonempty flag whose load succeeds the VerifyOptions carry exactly the
loaded pool. -/
theorem roots_spec_selection :
    (∀ (rp : String → Except String (List Nat)) (fn : Nat → VerifyOpts → Bool)
       (input : Option (List PemBlock)) (host : String) (o : VerifyOpts),
       (verifyAction rp fn input host "").optsOf = some o → o.roots = none) ∧
    (∀ (rp : String → Except String (List Nat)) (fn : Nat → VerifyOpts → Bool)
       (input : Option (List PemBlock)) (host roots : String)
       (p : List Nat) (o : VerifyOpts), roots ≠ "" → rp roots = .ok p →
       (verifyAction rp fn input host roots).optsOf = some o →
       o.roots = some p) := by
  constructor
  · intro rp fn input host o h
    have hr := verifyAction_opts_roots rp fn input host "" o h
    simpa [rootPoolOf] using hr
  · intro rp fn input host roots p o hne hok h
    have hr := verifyAction_opts_roots rp fn input host roots o h
    rw [hr]
    simp [rootPoolOf, hne, hok]

/-- Claim C8 witness: both branches of the roots-selection theorem at a
concrete one-certificate input. -/
theorem roots_spec_selection_witness :
    ((verifyAction (fun _ => .ok [5]) (fun _ _ => true)
        (some [⟨"CERTIFICATE", false, CertBytes.wellFormed 1⟩]) "h" "").optsOf =
          some ⟨"h", none, []⟩ ∧
      (⟨"h", none, []⟩ : VerifyOpts).roots = none) ∧
    ("r" ≠ "" ∧
      (verifyAction (fun _ => .ok [5]) (fun _ _ => true)
        (some [⟨"CERTIFICATE", false, CertBytes.wellFormed 1⟩]) "h" "r").optsOf =
          some ⟨"h", some [5], []⟩ ∧
      (⟨"h", some [5], []⟩ : VerifyOpts).roots = some [5]) :=
  ⟨⟨rfl, roots_spec_selection.1 (fun _ => .ok [5]) (fun _ _ => true)
      (some [⟨"CERTIFICATE", false, CertBytes.wellFormed 1⟩]) "h"
      ⟨"h", none, []⟩ rfl⟩,
   ⟨by decide, rfl, roots_spec_selection.2 (fun _ => .ok [5]) (fun _ _ => true)
      (some [⟨"CERTIFICATE", false, CertBytes.wellFormed 1⟩]) "h" "r" [5]
      ⟨"h", some [5], []⟩ (by decide) rfl rfl⟩⟩

/-- Claim C9, code-bug evidence: a readable input with no CERTIFICATE
block, whether empty or holding only a non-certificate block, drives
verifyAction to the final crt.Verify call with crt still nil, a
nil-pointer dereference in Go, instead of returning an error first. -/
theorem verify_reaches_nil_leaf :
    verifyAction (fun _ => .ok []) (fun _ _ => true) (some []) "" "" =
      .panicNilLeaf ⟨"", none, []⟩ ∧
    verifyAction (fun _ => .ok []) (fun _ _ => true)
      (some [⟨"EC PRIVATE KEY", false, CertBytes.malformed⟩]) "" "" =
      .panicNilLeaf ⟨"", none, []⟩ :=
  ⟨rfl, rfl⟩

/-! Create side: createAction and loadIssuerIdentity from
src/unnamed/part_000. External effects are recorded in an explicit event
trace; collaborators outside the package are oracle fields of a World
record, except where a spec-modelled definition is required. -/

/-- One externally visible effect of a createAction run. -/
inductive Event where
  | readFile (path : String)
  | genKey
  | writeFile (path : String) (mode : Nat)
  | prompt (purpose : String)
  | writeKey (path : String) (encrypted : Bool)
  deriving DecidableEq, Repr

/-- The errors createAction can return, keeping the structure the claims
need: errs.NumberOfArguments, errs.RequiredWithFlag, errs.EqualArguments,
errs.InvalidFlagValue, the missing-flag errors of loadIssuerIdentity,
errs.FileError, and wrapped collaborator errors (errors.WithStack keeps
the message). -/
inductive CreateErr where
  | numberOfArguments
  | requiredWithFlag (required flag : String)
  | equalArguments (a b : String)
  | invalidFlagValue (flag value expected : String)
  | missingFlag (flag profile : String)
  | fileError (path : String)
  | stackErr (msg : String)
  | otherError (msg : String)
  deriving DecidableEq, Repr

/-- An issuer identity: CA certificate and decrypted CA key. -/
structure Identity where
  crt : Nat
  key : Nat
  deriving DecidableEq, Repr

/-- The observable part of a certificate built by a profile: subject,
issuer, and the basic-constraints CA bit. -/
structure SpecCert where
  subject : String
  issuer : String
  isCA : Bool
  deriving DecidableEq, Repr

/-- A stepx509.Profile value: the certificate template it will sign and
the fresh subject private key it generated. -/
structure ProfileV where
  cert : SpecCert
  key : Nat
  deriving DecidableEq, Repr

/-- Results of the external collaborators one createAction run can
invoke, fixed up front so the run is a pure function. -/
structure World where
  genKeyResult : Except String Nat
  csrResult : Except String Nat
  caKeyEncrypted : Bool
  loadIdentityResult : Except String Identity
  leafProfileResult : Except String ProfileV
  intermediateProfileResult : Except String ProfileV
  rootFreshKey : Nat
  createCertResult : Except String Nat
  writeCrtResult : Except String Unit
  passwordInputs : List String
  writeKeyResult : Except String Unit

/-- The PEM block createAction writes to crt_file. -/
structure PemOut where
  type : String
  bytes : Nat
  deriving DecidableEq, Repr

/-- Modelled from the spec: stepx509.NewRootProfile is code of this
repository that is not under src. Spec 4.1: kind RootCA generates a
fresh key pair and builds a self-signed CA certificate with isCA true,
no issuer required; it fails with a profile error if the subject is
empty. -/
def NewRootProfile (subject : String) (freshKey : Nat) :
    Except String (SpecCert × Nat) :=
  if subject = "" then .error "ProfileError: subject must not be empty"
  else .ok ({ subject := subject, issuer := subject, isCA := true }, freshKey)

/-- Modelled from the spec: reader.ReadPasswordSubtle with the
reader.RetryOnEmpty policy is code of this repository that is not under
src. Spec 6: the prompt is invoked synchronously and retried while the
answer is empty; exhausting the input is an error. -/
def readPasswordRetryOnEmpty : List String → Except String String
  | [] => .error "password prompt failed"
  | s :: rest => if s = "" then readPasswordRetryOnEmpty rest else .ok s

/-- loadIssuerIdentity (part_000 lines 231 to 253): both flag values are
checked before any file access; only with both present does
stepx509.LoadIdentityFromDisk read the CA certificate and key, prompting
to decrypt the key when it is encrypted. -/
def loadIssuerIdentity (w : World) (profile caPath caKeyPath : String) :
    Except CreateErr Identity × List Event :=
  if caPath = "" then
    (.error (.missingFlag "--ca" profile), [])
  else if caKeyPath = "" then
    (.error (.missingFlag "--ca-key" profile), [])
  else
    let tr : List Event :=
      [.readFile caPath, .readFile caKeyPath] ++
        (if w.caKeyEncrypted then [.prompt "decrypt-ca"] else [])
    match w.loadIdentityResult with
    | .error m => (.error (.stackErr m), tr)
    | .ok idy => (.ok idy, tr)

/-- The switch over the profile flag inside the x509 arm of createAction
(part_000 lines 164 to 195). The leaf and intermediate-ca arms load the
issuer identity first and then call the profile constructor, which
generates the fresh subject key; the root-ca arm calls NewRootProfile
with no issuer. -/
def buildProfile (w : World) (prof subject caPath caKeyPath : String) :
    Except CreateErr ProfileV × List Event :=
  if prof = "leaf" then
    match loadIssuerIdentity w prof caPath caKeyPath with
    | (.error e, tr) => (.error e, tr)
    | (.ok _, tr) =>
      match w.leafProfileResult with
      | .error m => (.error (.stackErr m), tr ++ [.genKey])
      | .ok p => (.ok p, tr ++ [.genKey])
  else if prof = "intermediate-ca" then
    match loadIssuerIdentity w prof caPath caKeyPath with
    | (.error e, tr) => (.error e, tr)
    | (.ok _, tr) =>
      match w.intermediateProfileResult with
      | .error m => (.error (.stackErr m), tr ++ [.genKey])
      | .ok p => (.ok p, tr ++ [.genKey])
  else if prof = "root-ca" then
    match NewRootProfile subject w.rootFreshKey with
    | .error m => (.error (.stackErr m), [])
    | .ok (c, k) => (.ok ⟨c, k⟩, [.genKey])
  else
    (.error (.invalidFlagValue "profile" prof "leaf, intermediate-ca, root-ca"), [])

/-- The switch over the type flag of createAction (part_000 lines 137 to
210): the x509-csr arm generates a default key and an unsigned CSR; the
x509 arm builds a profile and signs its certificate; ssh is
unimplemented; anything else is an invalid flag value. -/
def buildArtifact (w : World) (typ prof subject caPath caKeyPath : String) :
    Except CreateErr (PemOut × Nat) × List Event :=
  if typ = "x509-csr" then
    match w.genKeyResult with
    | .error m => (.error (.stackErr m), [.genKey])
    | .ok k =>
      match w.csrResult with
      | .error m => (.error (.stackErr m), [.genKey])
      | .ok bytes => (.ok (⟨"CSR", bytes⟩, k), [.genKey])
  else if typ = "x509" then
    match buildProfile w prof subject caPath caKeyPath with
    | (.error e, tr) => (.error e, tr)
    | (.ok p, tr) =>
      match w.createCertResult with
      | .error m => (.error (.stackErr m), tr)
      | .ok bytes => (.ok (⟨"CERTIFICATE", bytes⟩, p.key), tr)
  else if typ = "ssh" then
    (.error (.otherError "implementation incomplete"), [])
  else
    (.error (.invalidFlagValue "type" typ "x509, ssh"), [])

/-- The output stage of createAction (part_000 lines 212 to 228): write
the certificate or CSR to crt_file with mode 0600, then, unless the
caller opted out, prompt for an encryption password with retry on empty,
then write the private key. -/
def writeOutputs (w : World) (crtFile keyFile : String) (usePassword : Bool)
    (tr0 : List Event) : Except CreateErr Unit × List Event :=
  let tr1 := tr0 ++ [.writeFile crtFile 0o600]
  match w.writeCrtResult with
  | .error _ => (.error (.fileError crtFile), tr1)
  | .ok _ =>
    if usePassword then
      let tr2 := tr1 ++ [.prompt "encrypt"]
      match readPasswordRetryOnEmpty w.passwordInputs with
      | .error m => (.error (.stackErr m), tr2)
      | .ok pass =>
        match w.writeKeyResult with
        | .error m => (.error (.stackErr m), tr2 ++ [.writeKey keyFile (pass != "")])
        | .ok _ => (.ok (), tr2 ++ [.writeKey keyFile (pass != "")])
    else
      match w.writeKeyResult with
      | .error m => (.error (.stackErr m), tr1 ++ [.writeKey keyFile false])
      | .ok _ => (.ok (), tr1 ++ [.writeKey keyFile false])

/-- createAction (part_000 lines 102 to 229). Checks, in source order:
exactly three arguments; the no-password flag requires the insecure
flag; distinct output paths. Then it builds the artifact per the type
and profile flags and runs the output stage. ctx.Args().Get yields the
empty string for a missing index, and ctx.Bool("csr") rewrites the type
to x509-csr. -/
def createAction (w : World) (args : List String)
    (noPassword insecure csr : Bool) (typFlag profFlag caPath caKeyPath : String) :
    Except CreateErr Unit × List Event :=
  if args.length ≠ 3 then
    (.error .numberOfArguments, [])
  else if noPassword && !insecure then
    (.error (.requiredWithFlag "insecure" "no-password"), [])
  else if args.getD 1 "" = args.getD 2 "" then
    (.error (.equalArguments "CRT_FILE" "KEY_FILE"), [])
  else
    match buildArtifact w (if csr then "x509-csr" else typFlag) profFlag
        (args.getD 0 "") caPath caKeyPath with
    | (.error e, tr) => (.error e, tr)
    | (.ok _, tr) => writeOutputs w (args.getD 1 "") (args.getD 2 "") (!noPassword) tr

/-- Events that are neither an output-file write, a key write, nor the
encryption-password prompt; everything the run can do before its output
stage. -/
def nonOutputEvent : Event → Bool
  | .writeFile _ _ => false
  | .writeKey _ _ => false
  | .prompt s => s != "encrypt"
  | _ => true

/-- Scanning the trace in order: true when a write of the certificate
file with mode 0600 occurs before any encryption prompt or key write. -/
def crtWriteFirst (crt : String) : List Event → Bool
  | [] => true
  | .writeFile p m :: _ => p == crt && m == 0o600
  | .prompt s :: rest => if s = "encrypt" then false else crtWriteFirst crt rest
  | .writeKey _ _ :: _ => false
  | .readFile _ :: rest => crtWriteFirst crt rest
  | .genKey :: rest => crtWriteFirst crt rest

/-- Scanning the trace in order: true when no key write occurs before
the first encryption prompt. -/
def keyOpsAfterEncryptPrompt : List Event → Bool
  | [] => true
  | .writeKey _ _ :: _ => false
  | .prompt s :: rest => if s = "encrypt" then true else keyOpsAfterEncryptPrompt rest
  | .readFile _ :: rest => keyOpsAfterEncryptPrompt rest
  | .genKey :: rest => keyOpsAfterEncryptPrompt rest
  | .writeFile _ _ :: rest => keyOpsAfterEncryptPrompt rest

theorem crtWriteFirst_append (c : String) (l r : List Event)
    (h : ∀ e ∈ l, nonOutputEvent e = true) :
    crtWriteFirst c (l ++ r) = crtWriteFirst c r := by
  induction l with
  | nil => rfl
  | cons a as ih =>
    have ha := h a (by simp)
    have has : ∀ e ∈ as, nonOutputEvent e = true := fun e he => h e (by simp [he])
    cases a with
    | readFile p => simpa [crtWriteFirst] using ih has
    | genKey => simpa [crtWriteFirst] using ih has
    | writeFile p m => simp [nonOutputEvent] at ha
    | prompt s =>
      simp only [nonOutputEvent, bne_iff_ne, ne_eq] at ha
      simpa [crtWriteFirst, ha] using ih has
    | writeKey p enc => simp [nonOutputEvent] at ha

theorem keyOpsAfterEncryptPrompt_append (l r : List Event)
    (h : ∀ e ∈ l, nonOutputEvent e = true) :
    keyOpsAfterEncryptPrompt (l ++ r) = keyOpsAfterEncryptPrompt r := by
  induction l with
  | nil => rfl
  | cons a as ih =>
    have ha := h a (by simp)
    have has : ∀ e ∈ as, nonOutputEvent e = true := fun e he => h e (by simp [he])
    cases a with
    | readFile p => simpa [keyOpsAfterEncryptPrompt] using ih has
    | genKey => simpa [keyOpsAfterEncryptPrompt] using ih has
    | writeFile p m => simp [nonOutputEvent] at ha
    | prompt s =>
      simp only [nonOutputEvent, bne_iff_ne, ne_eq] at ha
      simpa [keyOpsAfterEncryptPrompt, ha] using ih has
    | writeKey p enc => simp [nonOutputEvent] at ha

/-- A trace of non-output events holds no encryption prompt, no key
write, and no file write. -/
theorem nonOutput_no_key_events (l : List Event)
    (h : ∀ e ∈ l, nonOutputEvent e = true) :
    Event.prompt "encrypt" ∉ l ∧ (∀ p enc, Event.writeKey p enc ∉ l) ∧
    (∀ p m, Event.writeFile p m ∉ l) := by
  refine ⟨fun hm => ?_, fun p enc hm => ?_, fun p m hm => ?_⟩
  · have := h _ hm; simp [nonOutputEvent] at this
  · have := h _ hm; simp [nonOutputEvent] at this
  · have := h _ hm; simp [nonOutputEvent] at this

/-- The retry-on-empty prompt only ever returns a nonempty password. -/
theorem readPassword_ok_nonempty (inputs : List String) (p : String)
    (h : readPasswordRetryOnEmpty inputs = .ok p) : p ≠ "" := by
  induction inputs with
  | nil => simp [readPasswordRetryOnEmpty] at h
  | cons s rest ih =>
    by_cases hs : s = ""
    · rw [readPasswordRetryOnEmpty, if_pos hs] at h
      exact ih h
    · rw [readPasswordRetryOnEmpty, if_neg hs] at h
      exact (Except.ok.inj h) ▸ hs

/-- Every event the issuer loader emits is a non-output event. -/
theorem loadIssuerIdentity_events (w : World) (p ca ck : String) :
    ∀ e ∈ (loadIssuerIdentity w p ca ck).2, nonOutputEvent e = true := by
  intro e he
  unfold loadIssuerIdentity at he
  split_ifs at he
  · simp at he
  · simp at he
  · cases hw : w.loadIdentityResult <;> rw [hw] at he <;> simp at he <;>
      rcases he with rfl | rfl | rfl <;> rfl
  · cases hw : w.loadIdentityResult <;> rw [hw] at he <;> simp at he <;>
      rcases he with rfl | rfl <;> rfl

/-- Every event of the profile-building stage is a non-output event. -/
theorem buildProfile_events (w : World) (prof s ca ck : String) :
    ∀ e ∈ (buildProfile w prof s ca ck).2, nonOutputEvent e = true := by
  intro e he
  unfold buildProfile at he
  split_ifs at he with h1 h2 h3
  · rcases hli : loadIssuerIdentity w prof ca ck with ⟨r, tr⟩
    rw [hli] at he
    have htr : ∀ x ∈ tr, nonOutputEvent x = true := by
      intro x hx
      exact loadIssuerIdentity_events w prof ca ck x (by rw [hli]; exact hx)
    cases r with
    | error er => exact htr e he
    | ok idy =>
      cases hp : w.leafProfileResult <;> rw [hp] at he <;>
        simp at he <;> rcases he with he | rfl
      · exact htr e he
      · rfl
      · exact htr e he
      · rfl
  · rcases hli : loadIssuerIdentity w prof ca ck with ⟨r, tr⟩
    rw [hli] at he
    have htr : ∀ x ∈ tr, nonOutputEvent x = true := by
      intro x hx
      exact loadIssuerIdentity_events w prof ca ck x (by rw [hli]; exact hx)
    cases r with
    | error er => exact htr e he
    | ok idy =>
      cases hp : w.intermediateProfileResult <;> rw [hp] at he <;>
        simp at he <;> rcases he with he | rfl
      · exact htr e he
      · rfl
      · exact htr e he
      · rfl
  · cases hp : NewRootProfile s w.rootFreshKey with
    | error m => rw [hp] at he; simp at he
    | ok v =>
      rw [hp] at he
      obtain ⟨c, k⟩ := v
      simp at he
      subst he
      rfl
  · simp at he

/-- Every event of the artifact-building stage is a non-output event. -/
theorem buildArtifact_events (w : World) (typ prof s ca ck : String) :
    ∀ e ∈ (buildArtifact w typ prof s ca ck).2, nonOutputEvent e = true := by
  intro e he
  unfold buildArtifact at he
  split_ifs at he with h1 h2 h3
  · cases hg : w.genKeyResult <;> rw [hg] at he
    · simp at he; subst he; rfl
    · cases hc : w.csrResult <;> rw [hc] at he <;> simp at he <;> subst he <;> rfl
  · rcases hbp : buildProfile w prof s ca ck with ⟨r, tr⟩
    rw [hbp] at he
    have htr : ∀ x ∈ tr, nonOutputEvent x = true := by
      intro x hx
      exact buildProfile_events w prof s ca ck x (by rw [hbp]; exact hx)
    cases r with
    | error er => exact htr e he
    | ok p =>
      cases hc : w.createCertResult <;> rw [hc] at he <;> exact htr e he
  · simp at he
  · simp at he

/-- Whatever the collaborators do, the output stage records the
certificate write, with mode 0600, before any encryption prompt or key
write. -/
theorem writeOutputs_crt_first (w : World) (cf kf : String) (up : Bool)
    (tr0 : List Event) (h : ∀ e ∈ tr0, nonOutputEvent e = true) :
    crtWriteFirst cf (writeOutputs w cf kf up tr0).2 = true := by
  unfold writeOutputs
  cases w.writeCrtResult with
  | error m => simp [crtWriteFirst_append cf tr0 _ h, crtWriteFirst]
  | ok u =>
    cases up with
    | false =>
      cases w.writeKeyResult <;>
        simp [List.append_assoc, crtWriteFirst_append cf tr0 _ h, crtWriteFirst]
    | true =>
      cases hr : readPasswordRetryOnEmpty w.passwordInputs <;>
        cases w.writeKeyResult <;>
        simp [List.append_assoc, crtWriteFirst_append cf tr0 _ h, crtWriteFirst]

/-- With password protection switched off the output stage never prompts
for an encryption password, and any key it writes is unencrypted. -/
theorem writeOutputs_insecure (w : World) (cf kf : String)
    (tr0 : List Event) (h : ∀ e ∈ tr0, nonOutputEvent e = true) :
    Event.prompt "encrypt" ∉ (writeOutputs w cf kf false tr0).2 ∧
    ∀ p enc, Event.writeKey p enc ∈ (writeOutputs w cf kf false tr0).2 →
      enc = false := by
  have hne := nonOutput_no_key_events tr0 h
  constructor
  · intro hm
    unfold writeOutputs at hm
    cases hcw : w.writeCrtResult <;> rw [hcw] at hm
    · simp [hne.1] at hm
    · cases hwk : w.writeKeyResult <;> rw [hwk] at hm <;> simp [hne.1] at hm
  · intro p enc hm
    unfold writeOutputs at hm
    cases hcw : w.writeCrtResult <;> rw [hcw] at hm
    · simp [hne.2.1 p enc] at hm
    · cases hwk : w.writeKeyResult <;> rw [hwk] at hm <;>
        simp [hne.2.1 p enc] at hm <;> exact hm.2

/-- With password protection on, the output stage prompts before any key
write, and any key it writes is encrypted with the nonempty password the
prompt returned. -/
theorem writeOutputs_secure (w : World) (cf kf : String)
    (tr0 : List Event) (h : ∀ e ∈ tr0, nonOutputEvent e = true) :
    keyOpsAfterEncryptPrompt (writeOutputs w cf kf true tr0).2 = true ∧
    ∀ p enc, Event.writeKey p enc ∈ (writeOutputs w cf kf true tr0).2 →
      Event.prompt "encrypt" ∈ (writeOutputs w cf kf true tr0).2 ∧ enc = true := by
  have hne := nonOutput_no_key_events tr0 h
  constructor
  · unfold writeOutputs
    cases w.writeCrtResult with
    | error m =>
      simp [keyOpsAfterEncryptPrompt_append _ _ h, keyOpsAfterEncryptPrompt]
    | ok u =>
      cases readPasswordRetryOnEmpty w.passwordInputs with
      | error m =>
        simp [List.append_assoc, keyOpsAfterEncryptPrompt_append _ _ h,
          keyOpsAfterEncryptPrompt]
      | ok pass =>
        cases w.writeKeyResult <;>
          simp [List.append_assoc, keyOpsAfterEncryptPrompt_append _ _ h,
            keyOpsAfterEncryptPrompt]
  · intro p enc hm
    unfold writeOutputs at hm ⊢
    cases hcw : w.writeCrtResult <;> rw [hcw] at hm
    · simp [hne.2.1 p enc] at hm
    · cases hr : readPasswordRetryOnEmpty w.passwordInputs with
      | error m =>
        rw [hr] at hm
        simp [hne.2.1 p enc] at hm
      | ok pass =>
        rw [hr] at hm
        have hpass : (pass != "") = true := by
          simpa [bne_iff_ne] using readPassword_ok_nonempty _ _ hr
        cases hwk : w.writeKeyResult <;> rw [hwk] at hm <;>
          simp [hne.2.1 p enc] at hm <;>
          exact ⟨by simp, hm.2 ▸ hpass⟩

/-- If the password prompt was reached and fails, the output stage
returns that failure while the certificate file write has already been
recorded. -/
theorem writeOutputs_prompt_fails (w : World) (cf kf : String)
    (tr0 : List Event) (m : String) (h : ∀ e ∈ tr0, nonOutputEvent e = true)
    (hrp : readPasswordRetryOnEmpty w.passwordInputs = .error m)
    (hmem : Event.prompt "encrypt" ∈ (writeOutputs w cf kf true tr0).2) :
    (writeOutputs w cf kf true tr0).1 = .error (.stackErr m) ∧
    Event.writeFile cf 0o600 ∈ (writeOutputs w cf kf true tr0).2 := by
  have hne := nonOutput_no_key_events tr0 h
  unfold writeOutputs at hmem ⊢
  cases hcw : w.writeCrtResult <;> rw [hcw] at hmem
  · simp [hne.1] at hmem
  · simp [hrp]

/-- If the key write was reached and fails, the output stage returns
that failure while the certificate file write has already been
recorded. -/
theorem writeOutputs_keywrite_fails (w : World) (cf kf : String) (up : Bool)
    (tr0 : List Event) (p : String) (enc : Bool) (m : String)
    (h : ∀ e ∈ tr0, nonOutputEvent e = true)
    (hw : w.writeKeyResult = .error m)
    (hmem : Event.writeKey p enc ∈ (writeOutputs w cf kf up tr0).2) :
    (writeOutputs w cf kf up tr0).1 = .error (.stackErr m) ∧
    Event.writeFile cf 0o600 ∈ (writeOutputs w cf kf up tr0).2 := by
  have hne := nonOutput_no_key_events tr0 h
  unfold writeOutputs at hmem ⊢
  cases hcw : w.writeCrtResult <;> rw [hcw] at hmem
  · simp [hne.2.1 p enc] at hmem
  · cases up with
    | false => simp [hw]
    | true =>
      cases hr : readPasswordRetryOnEmpty w.passwordInputs <;> rw [hr] at hmem
      · simp [hne.2.1 p enc] at hmem
      · simp [hr, hw]

/-- Every createAction run either stops before the output stage with an
error and a trace of non-output events, or reaches the output stage with
such a trace accumulated. -/
theorem createAction_shape (w : World) (args : List String)
    (np ins csr : Bool) (typ prof ca ck : String) :
    (∃ er tr, createAction w args np ins csr typ prof ca ck = (.error er, tr) ∧
        ∀ e ∈ tr, nonOutputEvent e = true) ∨
    (∃ tr0, (∀ e ∈ tr0, nonOutputEvent e = true) ∧
        createAction w args np ins csr typ prof ca ck =
          writeOutputs w (args.getD 1 "") (args.getD 2 "") (!np) tr0) := by
  unfold createAction
  by_cases h1 : args.length ≠ 3
  · rw [if_pos h1]
    exact Or.inl ⟨_, _, rfl, by simp⟩
  · rw [if_neg h1]
    by_cases h2 : (np && !ins) = true
    · rw [if_pos h2]
      exact Or.inl ⟨_, _, rfl, by simp⟩
    · rw [if_neg h2]
      by_cases h3 : args.getD 1 "" = args.getD 2 ""
      · rw [if_pos h3]
        exact Or.inl ⟨_, _, rfl, by simp⟩
      · rw [if_neg h3]
        rcases hba : buildArtifact w (if csr then "x509-csr" else typ) prof
            (args.getD 0 "") ca ck with ⟨r, tr⟩
        have htr : ∀ e ∈ tr, nonOutputEvent e = true := by
          intro x hx
          exact buildArtifact_events w _ prof (args.getD 0 "") ca ck x
            (by rw [hba]; exact hx)
        cases r with
        | error er => exact Or.inl ⟨er, tr, rfl, htr⟩
        | ok v => exact Or.inr ⟨tr, htr, rfl⟩

theorem crtWriteFirst_of_nonOutput (c : String) (l : List Event)
    (h : ∀ e ∈ l, nonOutputEvent e = true) : crtWriteFirst c l = true := by
  simpa using crtWriteFirst_append c l [] h

theorem keyOps_of_nonOutput (l : List Event)
    (h : ∀ e ∈ l, nonOutputEvent e = true) : keyOpsAfterEncryptPrompt l = true := by
  simpa using keyOpsAfterEncryptPrompt_append l [] h

/-- The root-ca profile arm never looks at the issuer flag values. -/
theorem buildProfile_rootca_no_issuer (w : World) (s ca ck : String) :
    buildProfile w "root-ca" s ca ck = buildProfile w "root-ca" s "" "" := by
  simp [buildProfile]

theorem buildArtifact_rootca_no_issuer (w : World) (typ s ca ck : String) :
    buildArtifact w typ "root-ca" s ca ck = buildArtifact w typ "root-ca" s "" "" := by
  unfold buildArtifact
  split_ifs <;> rfl

/-- The CSR arm never looks at the issuer flag values. -/
theorem buildArtifact_csr_no_issuer (w : World) (prof s ca ck : String) :
    buildArtifact w "x509-csr" prof s ca ck =
      buildArtifact w "x509-csr" prof s "" "" := by
  simp [buildArtifact]

theorem createAction_rootca_no_issuer (w : World) (args : List String)
    (np ins : Bool) (typ ca ck : String) :
    createAction w args np ins false typ "root-ca" ca ck =
      createAction w args np ins false typ "root-ca" "" "" := by
  unfold createAction
  rw [buildArtifact_rootca_no_issuer]

theorem createAction_csr_no_issuer (w : World) (args : List String)
    (np ins : Bool) (typ prof ca ck : String) :
    createAction w args np ins true typ prof ca ck =
      createAction w args np ins true typ prof "" "" := by
  unfold createAction
  simp only [reduceIte]
  rw [buildArtifact_csr_no_issuer]

/-- Claim C4: leaf and intermediate-ca creation with a missing issuer
certificate path fails with an error naming the ca flag, and with the
certificate path present but the key path missing fails with an error
naming the ca-key flag, in both cases with an empty effect trace, hence
before any file I/O on the issuer files; root-ca and CSR creation ignore
the issuer flag values entirely. -/
theorem issuer_flags_required :
    (∀ (w : World) (np ins : Bool) (prof ca ck s cf kf : String),
        (np && !ins) = false → cf ≠ kf →
        (prof = "leaf" ∨ prof = "intermediate-ca") → ca = "" →
        createAction w [s, cf, kf] np ins false "x509" prof ca ck =
          (.error (.missingFlag "--ca" prof), [])) ∧
    (∀ (w : World) (np ins : Bool) (prof ca ck s cf kf : String),
        (np && !ins) = false → cf ≠ kf →
        (prof = "leaf" ∨ prof = "intermediate-ca") → ca ≠ "" → ck = "" →
        createAction w [s, cf, kf] np ins false "x509" prof ca ck =
          (.error (.missingFlag "--ca-key" prof), [])) ∧
    (∀ (w : World) (args : List String) (np ins : Bool) (typ ca ck : String),
        createAction w args np ins false typ "root-ca" ca ck =
          createAction w args np ins false typ "root-ca" "" "") ∧
    (∀ (w : World) (args : List String) (np ins : Bool) (typ prof ca ck : String),
        createAction w args np ins true typ prof ca ck =
          createAction w args np ins true typ prof "" "") := by
  refine ⟨?_, ?_, ?_, ?_⟩
  · intro w np ins prof ca ck s cf kf hnp hcf hprof hca
    subst hca
    rcases hprof with rfl | rfl <;>
      simp [createAction, buildArtifact, buildProfile, loadIssuerIdentity, hnp, hcf]
  · intro w np ins prof ca ck s cf kf hnp hcf hprof hca hck
    subst hck
    rcases hprof with rfl | rfl <;>
      simp [createAction, buildArtifact, buildProfile, loadIssuerIdentity, hnp, hcf, hca]
  · intro w args np ins typ ca ck
    exact createAction_rootca_no_issuer w args np ins typ ca ck
  · intro w args np ins typ prof ca ck
    exact createAction_csr_no_issuer w args np ins typ prof ca ck

/-- A world in which every collaborator succeeds: the issuer loads,
every profile builds, both writes succeed, and the password prompt
receives an empty answer and then a real one. -/
def w0 : World :=
  { genKeyResult := .ok 21, csrResult := .ok 22, caKeyEncrypted := false,
    loadIdentityResult := .ok ⟨31, 32⟩,
    leafProfileResult := .ok ⟨⟨"leafsubj", "caname", false⟩, 41⟩,
    intermediateProfileResult := .ok ⟨⟨"intsubj", "caname", true⟩, 42⟩,
    rootFreshKey := 43, createCertResult := .ok 51,
    writeCrtResult := .ok (), passwordInputs := ["", "pw"],
    writeKeyResult := .ok () }

/-- Like w0 but the password prompt runs out of input while retrying
empty answers. -/
def w1 : World :=
  { w0 with passwordInputs := [""] }

/-- Like w0 but the private-key write fails. -/
def w2 : World :=
  { w0 with writeKeyResult := .error "disk full" }

/-- Claim C4 witness: both missing-flag branches of the issuer-flag
theorem evaluated on concrete invocations. -/
theorem issuer_flags_required_witness :
    createAction w0 ["a", "c", "k"] false false false "x509" "leaf" "" "" =
      (.error (.missingFlag "--ca" "leaf"), []) ∧
    createAction w0 ["a", "c", "k"] false false false "x509" "intermediate-ca"
        "capath" "" =
      (.error (.missingFlag "--ca-key" "intermediate-ca"), []) :=
  ⟨issuer_flags_required.1 w0 false false "leaf" "" "" "a" "c" "k" rfl
      (by decide) (Or.inl rfl) rfl,
   issuer_flags_required.2.1 w0 false false "intermediate-ca" "capath" "" "a" "c" "k"
      rfl (by decide) (Or.inr rfl) (by decide) rfl⟩

/-- Claim C5: an invocation whose certificate output path equals the
private-key output path is rejected with a configuration error, the
equal-arguments error or, when the no-password flag also lacks insecure,
the flag error checked just before it; the effect trace is empty, so no
key is generated and no file is written. -/
theorem equal_output_paths_rejected (w : World) (np ins csr : Bool)
    (typ prof ca ck s f : String) :
    (createAction w [s, f, f] np ins csr typ prof ca ck).2 = [] ∧
    ((createAction w [s, f, f] np ins csr typ prof ca ck).1 =
        .error (.requiredWithFlag "insecure" "no-password") ∨
      (createAction w [s, f, f] np ins csr typ prof ca ck).1 =
        .error (.equalArguments "CRT_FILE" "KEY_FILE")) := by
  by_cases h2 : (np && !ins) = true
  · simp [createAction, h2]
  · simp [createAction, h2]

/-- Claim C6: the no-password flag without insecure is rejected; with
both flags the run never prompts for an encryption password and any key
write is unencrypted; without the no-password flag no key write precedes
the encryption prompt and any written key is encrypted with the nonempty
password the prompt returned; the prompt retries on empty input. -/
theorem password_policy :
    (∀ (w : World) (args : List String) (csr : Bool) (typ prof ca ck : String),
        args.length = 3 →
        createAction w args true false csr typ prof ca ck =
          (.error (.requiredWithFlag "insecure" "no-password"), [])) ∧
    (∀ (w : World) (args : List String) (csr : Bool) (typ prof ca ck : String),
        Event.prompt "encrypt" ∉
          (createAction w args true true csr typ prof ca ck).2 ∧
        ∀ p enc,
          Event.writeKey p enc ∈ (createAction w args true true csr typ prof ca ck).2 →
          enc = false) ∧
    (∀ (w : World) (args : List String) (ins csr : Bool) (typ prof ca ck : String),
        keyOpsAfterEncryptPrompt
          (createAction w args false ins csr typ prof ca ck).2 = true ∧
        ∀ p enc,
          Event.writeKey p enc ∈ (createAction w args false ins csr typ prof ca ck).2 →
          Event.prompt "encrypt" ∈
            (createAction w args false ins csr typ prof ca ck).2 ∧
          enc = true) ∧
    (∀ rest, readPasswordRetryOnEmpty ("" :: rest) = readPasswordRetryOnEmpty rest) := by
  refine ⟨?_, ?_, ?_, ?_⟩
  · intro w args csr typ prof ca ck h3
    simp [createAction, h3]
  · intro w args csr typ prof ca ck
    rcases createAction_shape w args true true csr typ prof ca ck with
      ⟨er, tr, heq, htr⟩ | ⟨tr0, htr, heq⟩
    · rw [heq]
      have hne := nonOutput_no_key_events tr htr
      exact ⟨hne.1, fun p enc hm => absurd hm (hne.2.1 p enc)⟩
    · rw [heq]
      exact writeOutputs_insecure w _ _ tr0 htr
  · intro w args ins csr typ prof ca ck
    rcases createAction_shape w args false ins csr typ prof ca ck with
      ⟨er, tr, heq, htr⟩ | ⟨tr0, htr, heq⟩
    · rw [heq]
      have hne := nonOutput_no_key_events tr htr
      exact ⟨keyOps_of_nonOutput tr htr, fun p enc hm => absurd hm (hne.2.1 p enc)⟩
    · rw [heq]
      exact writeOutputs_secure w _ _ tr0 htr
  · intro rest
    rfl

/-- Claim C6 witness: the flag rejection and, on a run that reaches the
key write, the encryption prompt having occurred with the key written
encrypted. -/
theorem password_policy_witness :
    createAction w0 ["a", "c", "k"] true false false "x509" "root-ca" "" "" =
      (.error (.requiredWithFlag "insecure" "no-password"), []) ∧
    (Event.prompt "encrypt" ∈
        (createAction w0 ["a", "c", "k"] false false false "x509" "root-ca" "" "").2 ∧
      (true : Bool) = true) :=
  ⟨password_policy.1 w0 ["a", "c", "k"] false "x509" "root-ca" "" "" rfl,
   (password_policy.2.2.1 w0 ["a", "c", "k"] false false "x509" "root-ca" "" "").2
     "k" true (by decide)⟩

/-- Claim C7: root-ca creation with an empty subject fails with the
profile error and an empty trace; for every nonempty subject the
spec-modelled root profile yields a self-signed certificate, issuer
equal to subject, with the CA bit set and the freshly generated key; and
the root-ca arm ignores the issuer flags. -/
theorem root_profile_subject :
    (∀ (w : World) (np ins : Bool) (ca ck cf kf : String),
        (np && !ins) = false → cf ≠ kf →
        createAction w ["", cf, kf] np ins false "x509" "root-ca" ca ck =
          (.error (.stackErr "ProfileError: subject must not be empty"), [])) ∧
    (∀ (s : String) (k : Nat), s ≠ "" →
        NewRootProfile s k = .ok ({ subject := s, issuer := s, isCA := true }, k)) ∧
    (∀ (w : World) (s ca ck : String),
        buildProfile w "root-ca" s ca ck = buildProfile w "root-ca" s "" "") := by
  refine ⟨?_, ?_, ?_⟩
  · intro w np ins ca ck cf kf hnp hcf
    simp [createAction, buildArtifact, buildProfile, NewRootProfile, hnp, hcf]
  · intro s k hs
    simp [NewRootProfile, hs]
  · intro w s ca ck
    exact buildProfile_rootca_no_issuer w s ca ck

/-- Claim C7 witness: the empty-subject rejection and a nonempty-subject
root profile evaluated concretely. -/
theorem root_profile_subject_witness :
    createAction w0 ["", "c", "k"] false false false "x509" "root-ca" "" "" =
      (.error (.stackErr "ProfileError: subject must not be empty"), []) ∧
    NewRootProfile "Root" 43 =
      .ok ({ subject := "Root", issuer := "Root", isCA := true }, 43) :=
  ⟨root_profile_subject.1 w0 false false "" "" "c" "k" rfl (by decide),
   root_profile_subject.2.1 "Root" 43 (by decide)⟩

/-- Claim C10: in every run the certificate file write, with mode 0600,
is recorded before any encryption prompt or key write; when the prompt
was reached and fails, and when the key write was reached and fails, the
run returns that error while the certificate write is already in the
trace, so the certificate file is left on disk. -/
theorem cert_written_before_key_material :
    (∀ (w : World) (np ins csr : Bool) (typ prof ca ck s cf kf : String),
        crtWriteFirst cf
          (createAction w [s, cf, kf] np ins csr typ prof ca ck).2 = true) ∧
    (∀ (w : World) (np ins csr : Bool) (typ prof ca ck s cf kf m : String),
        readPasswordRetryOnEmpty w.passwordInputs = .error m →
        Event.prompt "encrypt" ∈
          (createAction w [s, cf, kf] np ins csr typ prof ca ck).2 →
        (createAction w [s, cf, kf] np ins csr typ prof ca ck).1 =
          .error (.stackErr m) ∧
        Event.writeFile cf 0o600 ∈
          (createAction w [s, cf, kf] np ins csr typ prof ca ck).2) ∧
    (∀ (w : World) (np ins csr : Bool) (typ prof ca ck s cf kf p : String)
        (enc : Bool) (m : String),
        w.writeKeyResult = .error m →
        Event.writeKey p enc ∈
          (createAction w [s, cf, kf] np ins csr typ prof ca ck).2 →
        (createAction w [s, cf, kf] np ins csr typ prof ca ck).1 =
          .error (.stackErr m) ∧
        Event.writeFile cf 0o600 ∈
          (createAction w [s, cf, kf] np ins csr typ prof ca ck).2) := by
  refine ⟨?_, ?_, ?_⟩
  · intro w np ins csr typ prof ca ck s cf kf
    rcases createAction_shape w [s, cf, kf] np ins csr typ prof ca ck with
      ⟨er, tr, heq, htr⟩ | ⟨tr0, htr, heq⟩
    · rw [heq]
      exact crtWriteFirst_of_nonOutput cf tr htr
    · rw [heq]
      exact writeOutputs_crt_first w cf kf (!np) tr0 htr
  · intro w np ins csr typ prof ca ck s cf kf m hrp hmem
    rcases createAction_shape w [s, cf, kf] np ins csr typ prof ca ck with
      ⟨er, tr, heq, htr⟩ | ⟨tr0, htr, heq⟩
    · rw [heq] at hmem
      exact absurd hmem (nonOutput_no_key_events tr htr).1
    · rw [heq] at hmem ⊢
      cases np with
      | true => exact absurd hmem (writeOutputs_insecure w _ _ tr0 htr).1
      | false => exact writeOutputs_prompt_fails w _ _ tr0 m htr hrp hmem
  · intro w np ins csr typ prof ca ck s cf kf p enc m hw hmem
    rcases createAction_shape w [s, cf, kf] np ins csr typ prof ca ck with
      ⟨er, tr, heq, htr⟩ | ⟨tr0, htr, heq⟩
    · rw [heq] at hmem
      exact absurd hmem ((nonOutput_no_key_events tr htr).2.1 p enc)
    · rw [heq] at hmem ⊢
      exact writeOutputs_keywrite_fails w _ _ (!np) tr0 p enc m htr hw hmem

/-- Claim C10 witness: a run whose password prompt fails and a run whose
key write fails, both leaving the certificate write in the trace. -/
theorem cert_written_before_key_material_witness :
    ((createAction w1 ["a", "c", "k"] false false false "x509" "root-ca" "" "").1 =
        .error (.stackErr "password prompt failed") ∧
      Event.writeFile "c" 0o600 ∈
        (createAction w1 ["a", "c", "k"] false false false "x509" "root-ca" "" "").2) ∧
    ((createAction w2 ["a", "c", "k"] true true false "x509" "root-ca" "" "").1 =
        .error (.stackErr "disk full") ∧
      Event.writeFile "c" 0o600 ∈
        (createAction w2 ["a", "c", "k"] true true false "x509" "root-ca" "" "").2) :=
  ⟨cert_written_before_key_material.2.1 w1 false false false "x509" "root-ca" "" ""
      "a" "c" "k" "password prompt failed" rfl (by decide),
   cert_written_before_key_material.2.2 w2 true true false "x509" "root-ca" "" ""
      "a" "c" "k" "k" false "disk full" rfl (by decide)⟩

end StepCli
